import Mathlib

/-!
Verification of the FIX message codec of goutham-ab/quickfix (message.go):
`parseMessage`, `extractField`, `extractSpecificField`, `reverseRoute`,
`newCheckSum` and `Message.rebuild`, embedded shallowly over byte lists.
Helpers that live outside the embedded file (the field codec's `parseField`,
the `fieldMap` container, the static tag classification and ordering tables,
and the typed-field accessors) are modelled from the specification, as noted
on each definition.
-/

set_option maxRecDepth 100000

namespace Quickfix

/-- A raw byte of the wire format, modelled as a natural number. -/
abbrev Byte := Nat

/-- The SOH field delimiter byte (0x01). -/
def soh : Byte := 1

/-- The ASCII code of the tag/value separator character. -/
def eqByte : Byte := 61

/-- Bytes of a string, for writing wire buffers readably. -/
def strBytes (s : String) : List Byte := s.toList.map Char.toNat

/-- Sum of the byte values of a buffer. -/
def sumBytes (l : List Byte) : Nat := l.foldl (fun a b => a + b) 0

namespace tag

def BeginString : Nat := 8
def BodyLength : Nat := 9
def CheckSum : Nat := 10
def MsgType : Nat := 35
def SenderCompID : Nat := 49
def SenderSubID : Nat := 50
def SenderLocationID : Nat := 142
def TargetCompID : Nat := 56
def TargetSubID : Nat := 57
def TargetLocationID : Nat := 143
def OnBehalfOfCompID : Nat := 115
def OnBehalfOfSubID : Nat := 116
def OnBehalfOfLocationID : Nat := 144
def DeliverToCompID : Nat := 128
def DeliverToSubID : Nat := 129
def DeliverToLocationID : Nat := 145

/-- Modelled from the spec: the static tag → partition classification table
(read-only, shared); these are the standard FIX header tags. -/
def headerTags : List Nat :=
  [8, 9, 35, 49, 56, 115, 128, 90, 91, 50, 142, 57, 143, 116, 144, 129, 145,
   43, 97, 52, 122, 212, 213, 347, 369, 370]

/-- Modelled from the spec: membership of a tag in the header partition. -/
def IsHeader (t : Nat) : Bool := headerTags.contains t

/-- Modelled from the spec: the trailer tags of the static classification table. -/
def trailerTags : List Nat := [93, 89, 10]

/-- Modelled from the spec: membership of a tag in the trailer partition. -/
def IsTrailer (t : Nat) : Bool := trailerTags.contains t

end tag

/-- The begin-string value of the earliest protocol variant, FIX.4.0. -/
def BeginString_FIX40 : List Byte := strBytes "FIX.4.0"

/-- Field bytes as they appear in the raw message: the parsed tag, the value
bytes (between the separator and the delimiter) and the full encoded bytes
including the trailing delimiter. -/
structure FieldBytes where
  tag : Nat
  value : List Byte
  bytes : List Byte
deriving DecidableEq, Repr

/-- Modelled from the spec: a field's encoded length is the byte count of its
full wire representation including the delimiter. -/
def FieldBytes.Length (f : FieldBytes) : Nat := f.bytes.length

/-- Modelled from the spec: a field's byte total is the sum of the raw byte
values of its encoded bytes. -/
def FieldBytes.Total (f : FieldBytes) : Nat := sumBytes f.bytes

/-- Is the byte an ASCII decimal digit? -/
def isDigit (b : Byte) : Bool := 48 ≤ b && b ≤ 57

/-- Numeric value of a string of ASCII digit bytes. -/
def digitsToNat (l : List Byte) : Nat := l.foldl (fun acc d => acc * 10 + (d - 48)) 0

/-- Decimal digit bytes of a natural number (auxiliary, fuelled so that it
computes by kernel reduction; the fuel bounds the digit count). -/
def natToDigitsAux : Nat → Nat → List Byte → List Byte
  | 0, _, acc => acc
  | fuel + 1, n, acc => if n = 0 then acc else natToDigitsAux fuel (n / 10) ((48 + n % 10) :: acc)

/-- Decimal digit bytes of a natural number, as Go formats a non-negative int. -/
def natToDigits (n : Nat) : List Byte := if n = 0 then [48] else natToDigitsAux (n + 1) n []

/-- The canonical wire encoding of a field constructed from a tag and a value
(tag digits, separator, value, delimiter), as the typed field constructors
produce it. -/
def encodeField (t : Nat) (value : List Byte) : List Byte :=
  natToDigits t ++ eqByte :: (value ++ [soh])

/-- A field bytes object built by a typed field constructor. -/
def mkFieldBytes (t : Nat) (value : List Byte) : FieldBytes :=
  ⟨t, value, encodeField t value⟩

/-- Modelled from the spec: the zero-padded fixed-width 3-digit decimal format
used for the checksum field (Go's percent-03d). -/
def pad3 (n : Nat) : List Byte :=
  if n < 10 then [48, 48, 48 + n]
  else if n < 100 then [48, 48 + n / 10, 48 + n % 10]
  else natToDigits n

/-- newCheckSum builds the checksum field from an already reduced value,
formatted as a fixed-width 3-digit zero-padded decimal string. -/
def newCheckSum (value : Nat) : FieldBytes := mkFieldBytes tag.CheckSum (pad3 value)

/-- Modelled from the spec: the typed integer field constructor (body-length). -/
def NewIntField (t : Nat) (value : Nat) : FieldBytes := mkFieldBytes t (natToDigits value)

/-- The three canonical serialization orders. Modelled from the spec: each
partition's fixed, externally supplied ordering table. -/
inductive PartitionOrder where
  | header
  | normal
  | trailer
deriving DecidableEq, Repr

/-- Rank of a tag in the header's canonical order: the mandatory leading triad
comes first, all other tags follow in ascending tag order. -/
def headerOrdinal (t : Nat) : Nat :=
  if t = tag.BeginString then 1
  else if t = tag.BodyLength then 2
  else if t = tag.MsgType then 3
  else 4

/-- Rank of a tag in the trailer's canonical order: the checksum comes last. -/
def trailerOrdinal (t : Nat) : Nat := if t = tag.CheckSum then 2 else 1

/-- Modelled from the spec: the canonical tag comparison of each partition. -/
def PartitionOrder.lt : PartitionOrder → Nat → Nat → Bool
  | .header, i, j =>
      if headerOrdinal i < headerOrdinal j then true
      else if headerOrdinal j < headerOrdinal i then false
      else decide (i < j)
  | .normal, i, j => decide (i < j)
  | .trailer, i, j =>
      if trailerOrdinal i < trailerOrdinal j then true
      else if trailerOrdinal j < trailerOrdinal i then false
      else decide (i < j)

/-- Lookup of a tag in an association list of fields. -/
def lookupField : List (Nat × FieldBytes) → Nat → Option FieldBytes
  | [], _ => none
  | (t', f) :: rest, t => if t' = t then some f else lookupField rest t

/-- Insert-or-overwrite of a keyed field in an association list. -/
def updateAssoc : List (Nat × FieldBytes) → Nat → FieldBytes → List (Nat × FieldBytes)
  | [], t, f => [(t, f)]
  | (t', f') :: rest, t, f =>
      if t' = t then (t, f) :: rest else (t', f') :: updateAssoc rest t f

/-- Modelled from the spec: the fieldMap container — a mapping from tag to raw
field bytes, scoped to one partition, aware of that partition's canonical
serialization order. -/
structure FieldMap where
  fieldOrder : PartitionOrder
  fieldLookup : List (Nat × FieldBytes)
deriving DecidableEq, Repr

/-- fieldMap.init: an empty map carrying its partition's ordering table. -/
def FieldMap.init (o : PartitionOrder) : FieldMap := ⟨o, []⟩

/-- The direct map write used by the parser: fieldLookup[field.Tag] = field. -/
def FieldMap.setLookup (m : FieldMap) (f : FieldBytes) : FieldMap :=
  ⟨m.fieldOrder, updateAssoc m.fieldLookup f.tag f⟩

/-- Modelled from the spec: fieldMap.Set — insert or overwrite by tag. -/
def FieldMap.Set (m : FieldMap) (f : FieldBytes) : FieldMap := m.setLookup f

/-- Modelled from the spec: fieldMap lookup by tag. -/
def FieldMap.get (m : FieldMap) (t : Nat) : Option FieldBytes := lookupField m.fieldLookup t

/-- Modelled from the spec: fieldMap.length — the total encoded length of the
contained fields; begin-string, body-length and checksum are excluded from the
sum (they are self-referential or sent separately). -/
def FieldMap.length (m : FieldMap) : Nat :=
  m.fieldLookup.foldl
    (fun acc p =>
      if p.1 = tag.BeginString ∨ p.1 = tag.BodyLength ∨ p.1 = tag.CheckSum then acc
      else acc + p.2.Length) 0

/-- Modelled from the spec: fieldMap.total — the sum of the raw byte values of
the contained fields' encoded bytes; the checksum field does not contribute. -/
def FieldMap.total (m : FieldMap) : Nat :=
  m.fieldLookup.foldl
    (fun acc p => if p.1 = tag.CheckSum then acc else acc + p.2.Total) 0

/-- Insertion of one keyed field into a list sorted by the given comparison. -/
def insertOrdered (lt : Nat → Nat → Bool) (p : Nat × FieldBytes) :
    List (Nat × FieldBytes) → List (Nat × FieldBytes)
  | [] => [p]
  | q :: rest => if lt p.1 q.1 then p :: q :: rest else q :: insertOrdered lt p rest

/-- Sorts keyed fields by the given tag comparison (insertion sort). -/
def sortFields (lt : Nat → Nat → Bool) (l : List (Nat × FieldBytes)) :
    List (Nat × FieldBytes) :=
  l.foldr (insertOrdered lt) []

/-- Modelled from the spec: fieldMap.write — serializes the contained fields'
bytes in the partition's canonical tag order, not arrival order. -/
def FieldMap.write (m : FieldMap) : List Byte :=
  (sortFields (m.fieldOrder.lt) m.fieldLookup).foldr (fun p acc => p.2.bytes ++ acc) []

/-- The parse errors of the codec; each constructor corresponds to one of the
formatted error strings of the source and carries that format's arguments. -/
inductive ParseError where
  | noTrailingDelim (buffer : List Byte)
  | malformedField (raw : List Byte)
  | fieldsOutOfOrder (expected actual : Nat)
  | incorrectLength (expected got : Int)
  | fuelExhausted
deriving DecidableEq, Repr

/-- Index of the first occurrence of a byte (auxiliary, carrying the offset). -/
def indexByteAux (b : Byte) : List Byte → Nat → Option Nat
  | [], _ => none
  | x :: xs, i => if x = b then some i else indexByteAux b xs (i + 1)

/-- bytes.IndexByte: index of the first occurrence of a byte in a buffer. -/
def indexByte (buffer : List Byte) (b : Byte) : Option Nat := indexByteAux b buffer 0

/-- Modelled from the spec: parseField — parses one raw field (delimiter
included): the tag is the digits before the separator and must be a valid
positive integer, the value is the bytes after the separator and before the
delimiter. -/
def parseField (raw : List Byte) : Except ParseError FieldBytes :=
  match indexByte raw eqByte with
  | none => .error (.malformedField raw)
  | some sepIndex =>
      let tagBytes := raw.take sepIndex
      if tagBytes.isEmpty then .error (.malformedField raw)
      else if tagBytes.all isDigit && digitsToNat tagBytes != 0 then
        .ok ⟨digitsToNat tagBytes, ((raw.drop (sepIndex + 1)).dropLast), raw⟩
      else .error (.malformedField raw)

/-- extractField: locates the first delimiter (failing with the offending
buffer if there is none), splits off the field inclusive of the delimiter,
parses it, and returns the field with the remaining buffer. -/
def extractField (buffer : List Byte) : Except ParseError (FieldBytes × List Byte) :=
  match indexByte buffer soh with
  | none => .error (.noTrailingDelim buffer)
  | some endIndex =>
      match parseField (buffer.take (endIndex + 1)) with
      | .error e => .error e
      | .ok parsedFieldBytes => .ok (parsedFieldBytes, buffer.drop (endIndex + 1))

/-- extractSpecificField: extracts one field and fails with an
out-of-order-field error naming the expected and the actual tag if the
extracted tag is not the expected one. -/
def extractSpecificField (expectedTag : Nat) (buffer : List Byte) :
    Except ParseError (FieldBytes × List Byte) :=
  match extractField buffer with
  | .error e => .error e
  | .ok (field, remBuffer) =>
      if field.tag ≠ expectedTag then
        .error (.fieldsOutOfOrder expectedTag field.tag)
      else .ok (field, remBuffer)

/-- Message: the three partition maps, the receive time, the raw bytes, the
body payload slice and the ordered wire-field list. -/
structure Message where
  Header : FieldMap
  Trailer : FieldMap
  Body : FieldMap
  ReceiveTime : Nat
  Bytes : List Byte
  bodyBytes : List Byte
  fields : List FieldBytes
deriving DecidableEq, Repr

instance : Inhabited Message :=
  ⟨⟨FieldMap.init .header, FieldMap.init .trailer, FieldMap.init .normal, 0, [], [], []⟩⟩

/-- The state produced by the parsing loop of parseMessage. -/
structure LoopResult where
  header : FieldMap
  trailer : FieldMap
  body : FieldMap
  fields : List FieldBytes
  bodyBytes : List Byte
  trailerBytes : List Byte
deriving DecidableEq, Repr

/-- The field-consuming loop of parseMessage: extracts fields until the
checksum tag, routing each into its partition's map, tracking the candidate
body slice while no body field has been seen and the candidate trailer start
after each body field. The fuel only bounds the recursion; one unit per
extracted field suffices since every extraction consumes at least the
delimiter byte. -/
def parseLoop : Nat → FieldMap → FieldMap → FieldMap → List FieldBytes →
    List Byte → List Byte → Bool → List Byte → Except ParseError LoopResult
  | 0, _, _, _, _, _, _, _, _ => .error .fuelExhausted
  | fuel + 1, header, trailer, body, fields, bodyBytes, trailerBytes, foundBody, rawMessage =>
    match extractField rawMessage with
    | .error e => .error e
    | .ok (f, rest) =>
      let fields' := fields ++ [f]
      let isBody := !tag.IsHeader f.tag && !tag.IsTrailer f.tag
      let header' := if tag.IsHeader f.tag then header.setLookup f else header
      let trailer' := if !tag.IsHeader f.tag && tag.IsTrailer f.tag then trailer.setLookup f else trailer
      let body' := if isBody then body.setLookup f else body
      let foundBody' := foundBody || isBody
      let trailerBytes' := if isBody then rest else trailerBytes
      if f.tag = tag.CheckSum then
        .ok ⟨header', trailer', body', fields', bodyBytes, trailerBytes'⟩
      else
        parseLoop fuel header' trailer' body' fields'
          (if foundBody' then bodyBytes else rest) trailerBytes' foundBody' rest

/-- Modelled from the spec: reading a stored field's value as the declared
integer; an absent field or non-numeric content leaves the zero value. -/
def readIntValue (value : List Byte) : Int :=
  match value with
  | 45 :: rest => if rest.isEmpty || !rest.all isDigit then 0 else -(digitsToNat rest : Int)
  | _ => if value.isEmpty || !value.all isDigit then 0 else (digitsToNat value : Int)

/-- Modelled from the spec: GetField with a typed integer field — the declared
integer value of the stored field, zero when absent or non-numeric. -/
def FieldMap.getInt (m : FieldMap) (t : Nat) : Int :=
  match m.get t with
  | none => 0
  | some f => readIntValue f.value

/-- The actual length computed by parseMessage: the sum of the encoded lengths
of the parsed fields, the begin-string, body-length and checksum tags not
contributing. -/
def lengthSum (fields : List FieldBytes) : Nat :=
  fields.foldl
    (fun acc f =>
      if f.tag = tag.BeginString ∨ f.tag = tag.BodyLength ∨ f.tag = tag.CheckSum then acc
      else acc + f.Length) 0

/-- The Message as constructed after the loop: the three maps, the raw bytes,
and the body slice, trimmed by the trailer's length from its tail when it is
longer than the trailer bytes. -/
def finishMsg (rawMessage : List Byte) (r : LoopResult) : Message :=
  ⟨r.header, r.trailer, r.body, 0, rawMessage,
    if r.trailerBytes.length < r.bodyBytes.length then
      r.bodyBytes.take (r.bodyBytes.length - r.trailerBytes.length)
    else r.bodyBytes,
    r.fields⟩

/-- The tail of parseMessage after the loop: trims the body slice, computes
the actual length, and compares it with the declared body-length — on
mismatch the constructed Message is still returned together with the
length-mismatch error carrying both values. -/
def finishParse (rawMessage : List Byte) (r : LoopResult) :
    Option Message × Option ParseError :=
  if r.header.getInt tag.BodyLength ≠ (lengthSum r.fields : Int) then
    (some (finishMsg rawMessage r),
     some (.incorrectLength (r.header.getInt tag.BodyLength) (lengthSum r.fields)))
  else
    (some (finishMsg rawMessage r), none)

/-- parseMessage: constructs a Message from a byte buffer. The buffer must
start with the begin-string, body-length and message-type fields in that
order; the loop then consumes fields up to the checksum. Field-codec failures
abort with no Message; only the final length validation returns the
constructed Message alongside its error. -/
def parseMessage (rawMessage : List Byte) : Option Message × Option ParseError :=
  match extractSpecificField tag.BeginString rawMessage with
  | .error e => (none, some e)
  | .ok (f1, raw1) =>
    match extractSpecificField tag.BodyLength raw1 with
    | .error e => (none, some e)
    | .ok (f2, raw2) =>
      match extractSpecificField tag.MsgType raw2 with
      | .error e => (none, some e)
      | .ok (f3, raw3) =>
        match parseLoop (raw3.length + 1)
            (((FieldMap.init .header).setLookup f1).setLookup f2 |>.setLookup f3)
            (FieldMap.init .trailer) (FieldMap.init .normal)
            [f1, f2, f3] [] [] false raw3 with
        | .error e => (none, some e)
        | .ok r => finishParse rawMessage r

/-- rebuild: recomputes the body-length and the checksum, writes them into
their fields, and serializes header, body payload and trailer into the
Message's byte buffer. Note the source computes the checksum from the maps
before overwriting the body-length field. -/
def Message.rebuild (m : Message) : Message :=
  let bodyLength := m.Header.length + m.bodyBytes.length + m.Trailer.length
  let checkSum := (m.Header.total + m.Trailer.total + sumBytes m.bodyBytes) % 256
  let header := m.Header.Set (NewIntField tag.BodyLength bodyLength)
  let trailer := m.Trailer.Set (newCheckSum checkSum)
  { m with Header := header, Trailer := trailer,
           Bytes := header.write ++ m.bodyBytes ++ trailer.write }

/-- Modelled from the spec: the Message Builder's staging maps. -/
structure MessageBuilder where
  header : FieldMap
  body : FieldMap
  trailer : FieldMap
deriving DecidableEq, Repr

/-- Modelled from the spec: a new builder with empty partition maps. -/
def NewMessageBuilder : MessageBuilder :=
  ⟨FieldMap.init .header, FieldMap.init .normal, FieldMap.init .trailer⟩

/-- The copy closure of reverseRoute: when the source header field is present
and its value is non-empty, the value is set on the builder's header under the
swapped destination tag. -/
def rrCopy (m : Message) (b : MessageBuilder) (src dest : Nat) : MessageBuilder :=
  match m.Header.get src with
  | some f => if f.value ≠ [] then ⟨b.header.Set (mkFieldBytes dest f.value), b.body, b.trailer⟩ else b
  | none => b

/-- reverseRoute: a builder whose header holds the routing identity fields of
this message swapped pairwise; the on-behalf-of/deliver-to location pair is
only copied when the begin-string is present and is not FIX.4.0. -/
def Message.reverseRoute (m : Message) : MessageBuilder :=
  let b := NewMessageBuilder
  let b := rrCopy m b tag.SenderCompID tag.TargetCompID
  let b := rrCopy m b tag.SenderSubID tag.TargetSubID
  let b := rrCopy m b tag.SenderLocationID tag.TargetLocationID
  let b := rrCopy m b tag.TargetCompID tag.SenderCompID
  let b := rrCopy m b tag.TargetSubID tag.SenderSubID
  let b := rrCopy m b tag.TargetLocationID tag.SenderLocationID
  let b := rrCopy m b tag.OnBehalfOfCompID tag.DeliverToCompID
  let b := rrCopy m b tag.OnBehalfOfSubID tag.DeliverToSubID
  let b := rrCopy m b tag.DeliverToCompID tag.OnBehalfOfCompID
  let b := rrCopy m b tag.DeliverToSubID tag.OnBehalfOfSubID
  match m.Header.get tag.BeginString with
  | some beginString =>
      if beginString.value ≠ BeginString_FIX40 then
        rrCopy m (rrCopy m b tag.OnBehalfOfLocationID tag.DeliverToLocationID)
          tag.DeliverToLocationID tag.OnBehalfOfLocationID
      else b
  | none => b

/-! ### Spec-side definitions, used to state the claims -/

/-- The last field satisfying a predicate in a wire-field list (the spec's
last-write-wins occurrence). -/
def lastWith (p : FieldBytes → Bool) : List FieldBytes → Option FieldBytes
  | [] => none
  | f :: rest =>
    match lastWith p rest with
    | some g => some g
    | none => if p f then some f else none

/-- The last occurrence of a tag in a wire-field list. -/
def lastWithTag (t : Nat) (fs : List FieldBytes) : Option FieldBytes :=
  lastWith (fun f => f.tag == t) fs

/-- Left-biased choice on optional fields. -/
def oalt : Option FieldBytes → Option FieldBytes → Option FieldBytes
  | some f, _ => some f
  | none, o => o

/-- A field with the given tag that the parser routes into the header map. -/
def isHeaderField (t : Nat) (f : FieldBytes) : Bool :=
  f.tag == t && tag.IsHeader f.tag

/-- A field with the given tag that the parser routes into the trailer map. -/
def isTrailerField (t : Nat) (f : FieldBytes) : Bool :=
  f.tag == t && !tag.IsHeader f.tag && tag.IsTrailer f.tag

/-- A field with the given tag that the parser routes into the body map. -/
def isBodyField (t : Nat) (f : FieldBytes) : Bool :=
  f.tag == t && !tag.IsHeader f.tag && !tag.IsTrailer f.tag

/-- The sequence of wire fields of a buffer, extracted left to right until the
buffer is exhausted or fails to split (the spec's view of a serialized
message's fields). -/
def wireFields : Nat → List Byte → List FieldBytes
  | 0, _ => []
  | fuel + 1, buffer =>
    match extractField buffer with
    | .error _ => []
    | .ok (f, rest) => f :: wireFields fuel rest

/-- The value the spec expects reverseRoute to place under the swapped
destination tag: the source header field's value when present and non-empty,
nothing otherwise. -/
def rrExpect (m : Message) (src dest : Nat) : Option FieldBytes :=
  match m.Header.get src with
  | some f => if f.value ≠ [] then some (mkFieldBytes dest f.value) else none
  | none => none

/-- The spec's version gate for the location-ID pair: the begin-string is
present and is not the FIX.4.0 variant. -/
def rrGate (m : Message) : Bool :=
  match m.Header.get tag.BeginString with
  | some f => f.value != BeginString_FIX40
  | none => false

/-! ### Concrete buffers and messages used by counterexamples and witnesses -/

/-- A valid buffer whose only field between the triad and the checksum is the
trailer field 89. -/
def c1raw : List Byte := strBytes "8=A\x019=10\x0135=0\x0189=B\x0110=000\x01"

/-- The message parsed from `c1raw`. -/
def c1msg : Message := ((parseMessage c1raw).1).getD default

/-- A buffer whose declared body-length 7 disagrees with the actual length 5. -/
def c2raw : List Byte := strBytes "8=A\x019=7\x0135=0\x0110=000\x01"

/-- The message parsed from `c2raw`. -/
def c2msg : Message := ((parseMessage c2raw).1).getD default

/-- A valid buffer whose body-length value is stored with a leading zero. -/
def c3raw : List Byte := strBytes "8=A\x019=05\x0135=0\x0110=000\x01"

/-- The message parsed from `c3raw`. -/
def c3msg : Message := ((parseMessage c3raw).1).getD default

/-- A valid buffer whose only field between the triad and the checksum is the
trailer field 93. -/
def c4raw : List Byte := strBytes "8=A\x019=10\x0135=0\x0193=4\x0110=000\x01"

/-- The message parsed from `c4raw`. -/
def c4msg : Message := ((parseMessage c4raw).1).getD default

/-- A valid buffer whose only field between the triad and the checksum is the
header field 49; it has no body-partition field at all. -/
def c7raw : List Byte := strBytes "8=A\x019=10\x0135=0\x0149=B\x0110=000\x01"

/-- The message parsed from `c7raw`. -/
def c7msg : Message := ((parseMessage c7raw).1).getD default

/-- A valid buffer with sender-comp-id A and target-comp-id B. -/
def c8raw : List Byte := strBytes "8=FIX.4.2\x019=15\x0135=0\x0149=A\x0156=B\x0110=000\x01"

/-- The message parsed from `c8raw`. -/
def c8msg : Message := ((parseMessage c8raw).1).getD default

/-- A valid buffer in which the header tag 49 occurs twice. -/
def c9raw : List Byte := strBytes "8=A\x019=15\x0135=0\x0149=B\x0149=C\x0110=000\x01"

/-- The message parsed from `c9raw`. -/
def c9msg : Message := ((parseMessage c9raw).1).getD default

/-- A minimal valid buffer: the triad followed by the checksum. -/
def c10raw : List Byte := strBytes "8=A\x019=5\x0135=0\x0110=000\x01"

/-- The message parsed from `c10raw`. -/
def c10msg : Message := ((parseMessage c10raw).1).getD default

/-! ### Helper lemmas about the map container -/

theorem lookupField_updateAssoc (l : List (Nat × FieldBytes)) (k t : Nat) (f : FieldBytes) :
    lookupField (updateAssoc l k f) t = if k = t then some f else lookupField l t := by
  induction l with
  | nil => simp [updateAssoc, lookupField]
  | cons p rest ih =>
    obtain ⟨t', f'⟩ := p
    by_cases h : t' = k
    · subst h
      simp only [updateAssoc, if_pos rfl, lookupField]
      by_cases h2 : t' = t
      · subst h2; simp [lookupField]
      · simp [lookupField, h2]
    · simp only [updateAssoc, if_neg h, lookupField, ih]
      by_cases h2 : t' = t
      · subst h2
        have hk : ¬ k = t' := fun hk => h (Eq.symm hk)
        simp [lookupField, hk]
      · simp [lookupField, h2]

theorem FieldMap.get_setLookup (m : FieldMap) (f : FieldBytes) (t : Nat) :
    (m.setLookup f).get t = if f.tag = t then some f else m.get t :=
  lookupField_updateAssoc m.fieldLookup f.tag t f

theorem FieldMap.get_Set (m : FieldMap) (f : FieldBytes) (t : Nat) :
    (m.Set f).get t = if f.tag = t then some f else m.get t :=
  m.get_setLookup f t

/-! ### Helper lemmas about optional choice and last occurrences -/

theorem oalt_assoc (a b c : Option FieldBytes) :
    oalt (oalt a b) c = oalt a (oalt b c) := by
  cases a <;> cases b <;> rfl

theorem oalt_none_right (a : Option FieldBytes) : oalt a none = a := by
  cases a <;> rfl

theorem lastWith_cons (p : FieldBytes → Bool) (f : FieldBytes) (l : List FieldBytes) :
    lastWith p (f :: l) = oalt (lastWith p l) (if p f then some f else none) := by
  cases h : lastWith p l with
  | none => simp [lastWith, h, oalt]
  | some g => simp [lastWith, h, oalt]

theorem lastWith_congr (p q : FieldBytes → Bool) (h : ∀ f, p f = q f) :
    ∀ l, lastWith p l = lastWith q l := by
  intro l
  induction l with
  | nil => rfl
  | cons f rest ih => rw [lastWith_cons, lastWith_cons, ih, h]

theorem lastWith_none (p : FieldBytes → Bool) (h : ∀ f, p f = false) :
    ∀ l, lastWith p l = none := by
  intro l
  induction l with
  | nil => rfl
  | cons f rest ih => rw [lastWith_cons, ih, h]; rfl

theorem cond_setLookup_get (m : FieldMap) (f : FieldBytes) (t : Nat) (c : Bool)
    (p : FieldBytes → Bool) (hp : p f = ((f.tag == t) && c)) :
    (if c then m.setLookup f else m).get t =
      oalt (if p f then some f else none) (m.get t) := by
  cases c with
  | false =>
    have hpf : p f = false := by rw [hp]; simp
    simp [hpf, oalt]
  | true =>
    by_cases hft : f.tag = t
    · have hpf : p f = true := by rw [hp]; simp [hft]
      simp [hpf, oalt, FieldMap.get_setLookup, hft]
    · have hpf : p f = false := by rw [hp]; simp [hft]
      simp [hpf, oalt, FieldMap.get_setLookup, hft]

theorem isHeaderField_spec (t : Nat) (f : FieldBytes) :
    isHeaderField t f = ((f.tag == t) && tag.IsHeader f.tag) := rfl

theorem isTrailerField_spec (t : Nat) (f : FieldBytes) :
    isTrailerField t f = ((f.tag == t) && (!tag.IsHeader f.tag && tag.IsTrailer f.tag)) := by
  unfold isTrailerField
  cases f.tag == t <;> cases tag.IsHeader f.tag <;> cases tag.IsTrailer f.tag <;> rfl

theorem isBodyField_spec (t : Nat) (f : FieldBytes) :
    isBodyField t f = ((f.tag == t) && (!tag.IsHeader f.tag && !tag.IsTrailer f.tag)) := by
  unfold isBodyField
  cases f.tag == t <;> cases tag.IsHeader f.tag <;> cases tag.IsTrailer f.tag <;> rfl

/-- The routing invariant of the parsing loop: it appends the extracted fields
to the field list, and each partition map ends up holding, for every tag, the
last extracted field routed to that partition under that tag, the incoming
map's entry otherwise. -/
theorem parseLoop_get (fuel : Nat) :
    ∀ (hm tm bm : FieldMap) (fs : List FieldBytes) (bb tb : List Byte) (fb : Bool)
      (raw : List Byte) (r : LoopResult),
      parseLoop fuel hm tm bm fs bb tb fb raw = .ok r →
      ∃ suf : List FieldBytes, r.fields = fs ++ suf ∧
        (∀ t, r.header.get t = oalt (lastWith (isHeaderField t) suf) (hm.get t)) ∧
        (∀ t, r.trailer.get t = oalt (lastWith (isTrailerField t) suf) (tm.get t)) ∧
        (∀ t, r.body.get t = oalt (lastWith (isBodyField t) suf) (bm.get t)) := by
  induction fuel with
  | zero =>
    intro hm tm bm fs bb tb fb raw r h
    exact absurd h (by simp [parseLoop])
  | succ fuel ih =>
    intro hm tm bm fs bb tb fb raw r h
    cases hx : extractField raw with
    | error e => rw [parseLoop, hx] at h; exact absurd h (by simp)
    | ok p =>
      obtain ⟨f, rest⟩ := p
      rw [parseLoop, hx] at h
      simp only at h
      by_cases hC : f.tag = tag.CheckSum
      · rw [if_pos hC] at h
        injection h with h2
        subst h2
        refine ⟨[f], rfl, fun t => ?_, fun t => ?_, fun t => ?_⟩
        · show (if tag.IsHeader f.tag then hm.setLookup f else hm).get t = _
          rw [cond_setLookup_get hm f t _ _ (isHeaderField_spec t f)]
          rfl
        · show (if !tag.IsHeader f.tag && tag.IsTrailer f.tag then tm.setLookup f else tm).get t = _
          rw [cond_setLookup_get tm f t _ _ (isTrailerField_spec t f)]
          rfl
        · show (if !tag.IsHeader f.tag && !tag.IsTrailer f.tag then bm.setLookup f else bm).get t = _
          rw [cond_setLookup_get bm f t _ _ (isBodyField_spec t f)]
          rfl
      · rw [if_neg hC] at h
        obtain ⟨suf', hfs, hH, hT, hB⟩ := ih _ _ _ _ _ _ _ _ _ h
        refine ⟨f :: suf', ?_, fun t => ?_, fun t => ?_, fun t => ?_⟩
        · rw [hfs]; simp
        · rw [hH t, lastWith_cons, oalt_assoc,
            cond_setLookup_get hm f t _ _ (isHeaderField_spec t f)]
        · rw [hT t, lastWith_cons, oalt_assoc,
            cond_setLookup_get tm f t _ _ (isTrailerField_spec t f)]
        · rw [hB t, lastWith_cons, oalt_assoc,
            cond_setLookup_get bm f t _ _ (isBodyField_spec t f)]

/-! ### Shape lemmas about the extraction functions -/

theorem extractSpecificField_ok_tag (exp : Nat) (b : List Byte) (f : FieldBytes)
    (rest : List Byte) (h : extractSpecificField exp b = .ok (f, rest)) : f.tag = exp := by
  unfold extractSpecificField at h
  cases hx : extractField b with
  | error e => rw [hx] at h; exact absurd h (by simp)
  | ok p =>
    obtain ⟨f', rest'⟩ := p
    rw [hx] at h
    simp only at h
    by_cases ht : f'.tag ≠ exp
    · rw [if_pos ht] at h; exact absurd h (by simp)
    · rw [if_neg ht] at h
      injection h with h2
      obtain ⟨h3, h4⟩ := Prod.mk.inj h2
      push_neg at ht
      rw [← h3]; exact ht

theorem parseField_error_shape (raw : List Byte) (e : ParseError)
    (h : parseField raw = .error e) : ∃ b, e = .malformedField b := by
  unfold parseField at h
  cases hi : indexByte raw eqByte with
  | none => rw [hi] at h; exact ⟨raw, (Except.error.inj h).symm⟩
  | some i =>
    rw [hi] at h
    simp only at h
    split_ifs at h
    all_goals exact ⟨raw, (Except.error.inj h).symm⟩

theorem extractField_error_shape (b : List Byte) (e : ParseError)
    (h : extractField b = .error e) :
    (∃ x, e = .noTrailingDelim x) ∨ ∃ x, e = .malformedField x := by
  unfold extractField at h
  cases hi : indexByte b soh with
  | none => rw [hi] at h; exact Or.inl ⟨b, (Except.error.inj h).symm⟩
  | some i =>
    rw [hi] at h
    simp only at h
    cases hp : parseField (b.take (i + 1)) with
    | error e' =>
      rw [hp] at h
      have := Except.error.inj h
      exact Or.inr (this ▸ parseField_error_shape _ _ hp)
    | ok f => rw [hp] at h; exact absurd h (by simp)

theorem extractSpecificField_error_shape (exp : Nat) (b : List Byte) (e : ParseError)
    (h : extractSpecificField exp b = .error e) :
    (∃ x, e = .noTrailingDelim x) ∨ (∃ x, e = .malformedField x) ∨
      ∃ x y, e = .fieldsOutOfOrder x y := by
  unfold extractSpecificField at h
  cases hx : extractField b with
  | error e' =>
    rw [hx] at h
    have := Except.error.inj h
    rcases extractField_error_shape _ _ hx with h1 | h1
    · exact Or.inl (this ▸ h1)
    · exact Or.inr (Or.inl (this ▸ h1))
  | ok p =>
    obtain ⟨f, rest⟩ := p
    rw [hx] at h
    simp only at h
    split_ifs at h
    all_goals exact Or.inr (Or.inr ⟨exp, f.tag, (Except.error.inj h).symm⟩)

theorem parseLoop_error_shape (fuel : Nat) :
    ∀ (hm tm bm : FieldMap) (fs : List FieldBytes) (bb tb : List Byte) (fb : Bool)
      (raw : List Byte) (e : ParseError),
      parseLoop fuel hm tm bm fs bb tb fb raw = .error e →
      e = .fuelExhausted ∨ (∃ x, e = .noTrailingDelim x) ∨ ∃ x, e = .malformedField x := by
  induction fuel with
  | zero =>
    intro hm tm bm fs bb tb fb raw e h
    rw [parseLoop] at h
    exact Or.inl (Except.error.inj h).symm
  | succ fuel ih =>
    intro hm tm bm fs bb tb fb raw e h
    cases hx : extractField raw with
    | error e' =>
      rw [parseLoop, hx] at h
      exact Or.inr ((Except.error.inj h) ▸ extractField_error_shape _ _ hx)
    | ok p =>
      obtain ⟨f, rest⟩ := p
      rw [parseLoop, hx] at h
      simp only at h
      by_cases hC : f.tag = tag.CheckSum
      · rw [if_pos hC] at h; exact absurd h (by simp)
      · rw [if_neg hC] at h
        exact ih _ _ _ _ _ _ _ _ _ h

/-! ### Lemmas about the post-loop validation -/

theorem finishParse_eq (rawMessage : List Byte) (r : LoopResult) :
    finishParse rawMessage r =
      (some (finishMsg rawMessage r),
       if r.header.getInt tag.BodyLength ≠ (lengthSum r.fields : Int) then
         some (.incorrectLength (r.header.getInt tag.BodyLength) (lengthSum r.fields))
       else none) := by
  unfold finishParse
  split_ifs <;> rfl

/-- Whenever parseMessage produces a Message, the three leading extractions
and the loop all succeeded, the Message is the post-loop construction, and the
overall result is the post-loop validation's result. -/
theorem parseMessage_some (raw : List Byte) (m : Message)
    (h : (parseMessage raw).1 = some m) :
    ∃ f1 raw1 f2 raw2 f3 raw3 r,
      extractSpecificField tag.BeginString raw = .ok (f1, raw1) ∧
      extractSpecificField tag.BodyLength raw1 = .ok (f2, raw2) ∧
      extractSpecificField tag.MsgType raw2 = .ok (f3, raw3) ∧
      parseLoop (raw3.length + 1)
        (((FieldMap.init .header).setLookup f1).setLookup f2 |>.setLookup f3)
        (FieldMap.init .trailer) (FieldMap.init .normal)
        [f1, f2, f3] [] [] false raw3 = .ok r ∧
      m = finishMsg raw r ∧
      parseMessage raw = finishParse raw r := by
  unfold parseMessage at h
  cases h1 : extractSpecificField tag.BeginString raw with
  | error e => rw [h1] at h; exact absurd h (by simp)
  | ok p1 =>
    obtain ⟨f1, raw1⟩ := p1
    rw [h1] at h
    simp only at h
    cases h2 : extractSpecificField tag.BodyLength raw1 with
    | error e => rw [h2] at h; exact absurd h (by simp)
    | ok p2 =>
      obtain ⟨f2, raw2⟩ := p2
      rw [h2] at h
      simp only at h
      cases h3 : extractSpecificField tag.MsgType raw2 with
      | error e => rw [h3] at h; exact absurd h (by simp)
      | ok p3 =>
        obtain ⟨f3, raw3⟩ := p3
        rw [h3] at h
        simp only at h
        cases hL : parseLoop (raw3.length + 1)
            (((FieldMap.init .header).setLookup f1).setLookup f2 |>.setLookup f3)
            (FieldMap.init .trailer) (FieldMap.init .normal)
            [f1, f2, f3] [] [] false raw3 with
        | error e => rw [hL] at h; exact absurd h (by simp)
        | ok r =>
          rw [hL] at h
          simp only at h
          rw [finishParse_eq] at h
          refine ⟨f1, raw1, f2, raw2, f3, raw3, r, rfl, h2, h3, hL,
            (Option.some.inj h).symm, ?_⟩
          unfold parseMessage
          rw [h1]; simp only
          rw [h2]; simp only
          rw [h3]; simp only
          rw [hL]

/-- C2: a length mismatch is the only failure returned together with a
constructed Message; the error carries the declared body-length and the
computed length (the sum of the encoded lengths of the parsed fields other
than begin-string, body-length and checksum), and they disagree. Conversely,
whenever a length-mismatch error is produced, a Message accompanies it. -/
theorem c2_length_mismatch_only_soft_failure :
    (∀ (raw : List Byte) (m : Message) (e : ParseError),
      parseMessage raw = (some m, some e) →
      e = .incorrectLength (m.Header.getInt tag.BodyLength) (lengthSum m.fields) ∧
      m.Header.getInt tag.BodyLength ≠ (lengthSum m.fields : Int)) ∧
    (∀ (raw : List Byte) (d a : Int),
      (parseMessage raw).2 = some (.incorrectLength d a) →
      (parseMessage raw).1.isSome = true) := by
  constructor
  · intro raw m e h
    have h1 : (parseMessage raw).1 = some m := by rw [h]
    obtain ⟨f1, raw1, f2, raw2, f3, raw3, r, _, _, _, _, hm, hp⟩ := parseMessage_some raw m h1
    rw [hp, finishParse_eq] at h
    by_cases hc : r.header.getInt tag.BodyLength ≠ (lengthSum r.fields : Int)
    · rw [if_pos hc] at h
      obtain ⟨hfst, hsnd⟩ := Prod.mk.inj h
      have he := Option.some.inj hsnd
      subst hm
      exact ⟨he.symm, hc⟩
    · rw [if_neg hc] at h
      exact absurd (Prod.mk.inj h).2 (by simp)
  · intro raw d a h
    unfold parseMessage at h ⊢
    cases h1 : extractSpecificField tag.BeginString raw with
    | error e =>
      rw [h1] at h
      simp only at h
      have he := Option.some.inj h
      rcases extractSpecificField_error_shape _ _ _ h1 with ⟨x, hx⟩ | ⟨x, hx⟩ | ⟨x, y, hx⟩ <;>
        rw [hx] at he <;> cases he
    | ok p1 =>
      obtain ⟨f1, raw1⟩ := p1
      rw [h1] at h
      simp only at h ⊢
      cases h2 : extractSpecificField tag.BodyLength raw1 with
      | error e =>
        rw [h2] at h
        simp only at h
        have he := Option.some.inj h
        rcases extractSpecificField_error_shape _ _ _ h2 with ⟨x, hx⟩ | ⟨x, hx⟩ | ⟨x, y, hx⟩ <;>
          rw [hx] at he <;> cases he
      | ok p2 =>
        obtain ⟨f2, raw2⟩ := p2
        rw [h2] at h
        simp only at h ⊢
        cases h3 : extractSpecificField tag.MsgType raw2 with
        | error e =>
          rw [h3] at h
          simp only at h
          have he := Option.some.inj h
          rcases extractSpecificField_error_shape _ _ _ h3 with ⟨x, hx⟩ | ⟨x, hx⟩ | ⟨x, y, hx⟩ <;>
            rw [hx] at he <;> cases he
        | ok p3 =>
          obtain ⟨f3, raw3⟩ := p3
          rw [h3] at h
          simp only at h ⊢
          cases hL : parseLoop (raw3.length + 1)
              (((FieldMap.init .header).setLookup f1).setLookup f2 |>.setLookup f3)
              (FieldMap.init .trailer) (FieldMap.init .normal)
              [f1, f2, f3] [] [] false raw3 with
          | error e =>
            rw [hL] at h
            simp only at h
            have he := Option.some.inj h
            rcases parseLoop_error_shape _ _ _ _ _ _ _ _ _ _ hL with hx | ⟨x, hx⟩ | ⟨x, hx⟩ <;>
              rw [hx] at he <;> cases he
          | ok r =>
            simp only
            rw [finishParse_eq]
            simp

/-- C5: when the first extracted field's tag is not begin-string, parseMessage
returns no Message and an out-of-order-field error naming the expected and
actual tags; likewise when the second field is not body-length or the third is
not message-type. -/
theorem c5_leading_field_strictness :
    (∀ (raw : List Byte) (f : FieldBytes) (rest : List Byte),
      extractField raw = .ok (f, rest) → f.tag ≠ tag.BeginString →
      parseMessage raw = (none, some (.fieldsOutOfOrder tag.BeginString f.tag))) ∧
    (∀ (raw raw1 : List Byte) (f1 f : FieldBytes) (rest : List Byte),
      extractSpecificField tag.BeginString raw = .ok (f1, raw1) →
      extractField raw1 = .ok (f, rest) → f.tag ≠ tag.BodyLength →
      parseMessage raw = (none, some (.fieldsOutOfOrder tag.BodyLength f.tag))) ∧
    (∀ (raw raw1 raw2 : List Byte) (f1 f2 f : FieldBytes) (rest : List Byte),
      extractSpecificField tag.BeginString raw = .ok (f1, raw1) →
      extractSpecificField tag.BodyLength raw1 = .ok (f2, raw2) →
      extractField raw2 = .ok (f, rest) → f.tag ≠ tag.MsgType →
      parseMessage raw = (none, some (.fieldsOutOfOrder tag.MsgType f.tag))) := by
  refine ⟨?_, ?_, ?_⟩
  · intro raw f rest hx hne
    unfold parseMessage extractSpecificField
    rw [hx]
    simp only
    rw [if_pos hne]
  · intro raw raw1 f1 f rest h1 hx hne
    unfold parseMessage
    rw [h1]
    simp only
    unfold extractSpecificField
    rw [hx]
    simp only
    rw [if_pos hne]
  · intro raw raw1 raw2 f1 f2 f rest h1 h2 hx hne
    unfold parseMessage
    rw [h1]
    simp only
    rw [h2]
    simp only
    unfold extractSpecificField
    rw [hx]
    simp only
    rw [if_pos hne]

theorem indexByteAux_none (b : Byte) (l : List Byte) (h : b ∉ l) :
    ∀ i, indexByteAux b l i = none := by
  induction l with
  | nil => intro i; rfl
  | cons x xs ih =>
    intro i
    have hx : ¬ x = b := fun he => h (he ▸ List.mem_cons_self x xs)
    rw [indexByteAux, if_neg hx]
    exact ih (fun hm => h (List.mem_cons_of_mem x hm)) (i + 1)

/-- C6: a buffer with no delimiter byte anywhere makes extractField fail with
a malformed-field error carrying the offending buffer; and an extraction
failure at any stage — any of the three leading fields or the loop — makes
parseMessage abort with no Message and only that error. -/
theorem c6_missing_delim_and_abort :
    (∀ buffer : List Byte, soh ∉ buffer →
      extractField buffer = .error (.noTrailingDelim buffer)) ∧
    (∀ (raw : List Byte) (e : ParseError),
      extractSpecificField tag.BeginString raw = .error e →
      parseMessage raw = (none, some e)) ∧
    (∀ (raw raw1 : List Byte) (f1 : FieldBytes) (e : ParseError),
      extractSpecificField tag.BeginString raw = .ok (f1, raw1) →
      extractSpecificField tag.BodyLength raw1 = .error e →
      parseMessage raw = (none, some e)) ∧
    (∀ (raw raw1 raw2 : List Byte) (f1 f2 : FieldBytes) (e : ParseError),
      extractSpecificField tag.BeginString raw = .ok (f1, raw1) →
      extractSpecificField tag.BodyLength raw1 = .ok (f2, raw2) →
      extractSpecificField tag.MsgType raw2 = .error e →
      parseMessage raw = (none, some e)) ∧
    (∀ (raw raw1 raw2 raw3 : List Byte) (f1 f2 f3 : FieldBytes) (e : ParseError),
      extractSpecificField tag.BeginString raw = .ok (f1, raw1) →
      extractSpecificField tag.BodyLength raw1 = .ok (f2, raw2) →
      extractSpecificField tag.MsgType raw2 = .ok (f3, raw3) →
      parseLoop (raw3.length + 1)
        (((FieldMap.init .header).setLookup f1).setLookup f2 |>.setLookup f3)
        (FieldMap.init .trailer) (FieldMap.init .normal)
        [f1, f2, f3] [] [] false raw3 = .error e →
      parseMessage raw = (none, some e)) := by
  refine ⟨?_, ?_, ?_, ?_, ?_⟩
  · intro buffer h
    unfold extractField indexByte
    rw [indexByteAux_none soh buffer h 0]
  · intro raw e h1
    unfold parseMessage
    rw [h1]
  · intro raw raw1 f1 e h1 h2
    unfold parseMessage
    rw [h1]
    simp only
    rw [h2]
  · intro raw raw1 raw2 f1 f2 e h1 h2 h3
    unfold parseMessage
    rw [h1]
    simp only
    rw [h2]
    simp only
    rw [h3]
  · intro raw raw1 raw2 raw3 f1 f2 f3 e h1 h2 h3 hL
    unfold parseMessage
    rw [h1]
    simp only
    rw [h2]
    simp only
    rw [h3]
    simp only
    rw [hL]

theorem isHeaderField_of_isHeader (t : Nat) (h : tag.IsHeader t = true) (f : FieldBytes) :
    isHeaderField t f = (f.tag == t) := by
  by_cases hft : f.tag = t
  · subst hft; simp [isHeaderField, h]
  · simp [isHeaderField, hft]

theorem isHeaderField_of_not (t : Nat) (h : tag.IsHeader t = false) (f : FieldBytes) :
    isHeaderField t f = false := by
  by_cases hft : f.tag = t
  · subst hft; simp [isHeaderField, h]
  · simp [isHeaderField, hft]

theorem isTrailerField_of (t : Nat) (hh : tag.IsHeader t = false) (ht : tag.IsTrailer t = true)
    (f : FieldBytes) : isTrailerField t f = (f.tag == t) := by
  by_cases hft : f.tag = t
  · subst hft; simp [isTrailerField, hh, ht]
  · have hb : (f.tag == t) = false := by simp [hft]
    simp [isTrailerField, hb]

theorem isTrailerField_of_not (t : Nat)
    (h : (!tag.IsHeader t && tag.IsTrailer t) = false) (f : FieldBytes) :
    isTrailerField t f = false := by
  by_cases hft : f.tag = t
  · subst hft; rw [isTrailerField_spec]; simp only [h]; simp
  · simp [isTrailerField, hft]

theorem isBodyField_of (t : Nat) (hh : tag.IsHeader t = false) (ht : tag.IsTrailer t = false)
    (f : FieldBytes) : isBodyField t f = (f.tag == t) := by
  by_cases hft : f.tag = t
  · subst hft; simp [isBodyField, hh, ht]
  · have hb : (f.tag == t) = false := by simp [hft]
    simp [isBodyField, hb]

theorem isBodyField_of_not (t : Nat)
    (h : (!tag.IsHeader t && !tag.IsTrailer t) = false) (f : FieldBytes) :
    isBodyField t f = false := by
  by_cases hft : f.tag = t
  · subst hft; rw [isBodyField_spec]; simp only [h]; simp
  · simp [isBodyField, hft]

/-- C9: in every parsed Message, each partition map holds, for every tag, the
last wire occurrence of that tag among the fields routed to that partition —
a duplicate tag within a partition is resolved last-write-wins, one field per
tag per partition. -/
theorem c9_duplicate_tag_last_write_wins (raw : List Byte) (m : Message)
    (h : (parseMessage raw).1 = some m) (t : Nat) :
    m.Header.get t = (if tag.IsHeader t then lastWithTag t m.fields else none) ∧
    m.Trailer.get t =
      (if !tag.IsHeader t && tag.IsTrailer t then lastWithTag t m.fields else none) ∧
    m.Body.get t =
      (if !tag.IsHeader t && !tag.IsTrailer t then lastWithTag t m.fields else none) := by
  obtain ⟨f1, raw1, f2, raw2, f3, raw3, r, h1, h2, h3, hL, hm, hp⟩ := parseMessage_some raw m h
  have hf1 : f1.tag = tag.BeginString := extractSpecificField_ok_tag _ _ _ _ h1
  have hf2 : f2.tag = tag.BodyLength := extractSpecificField_ok_tag _ _ _ _ h2
  have hf3 : f3.tag = tag.MsgType := extractSpecificField_ok_tag _ _ _ _ h3
  obtain ⟨suf, hfs, hH, hT, hB⟩ := parseLoop_get _ _ _ _ _ _ _ _ _ _ hL
  subst hm
  simp only [finishMsg, hfs, List.cons_append, List.nil_append]
  have hbaseH : (FieldMap.init .header).get t = none := rfl
  have hbaseT : (FieldMap.init .trailer).get t = none := rfl
  have hbaseB : (FieldMap.init .normal).get t = none := rfl
  refine ⟨?_, ?_, ?_⟩
  · rw [hH t, FieldMap.get_setLookup, FieldMap.get_setLookup, FieldMap.get_setLookup,
      hf1, hf2, hf3, hbaseH]
    unfold lastWithTag
    simp only [lastWith_cons, oalt_assoc]
    rw [hf1, hf2, hf3]
    cases hih : tag.IsHeader t with
    | true =>
      rw [if_pos rfl]
      rw [lastWith_congr _ _ (isHeaderField_of_isHeader t hih) suf]
      congr 1
      simp only [beq_iff_eq]
      split_ifs <;> rfl
    | false =>
      rw [if_neg (show ¬ (false = true) by decide)]
      rw [lastWith_none _ (isHeaderField_of_not t hih)]
      have h8 : ¬ tag.BeginString = t := by
        intro he; rw [← he] at hih; exact absurd hih (by decide)
      have h9 : ¬ tag.BodyLength = t := by
        intro he; rw [← he] at hih; exact absurd hih (by decide)
      have h35 : ¬ tag.MsgType = t := by
        intro he; rw [← he] at hih; exact absurd hih (by decide)
      simp [oalt, h8, h9, h35]
  · rw [hT t, hbaseT, oalt_none_right]
    unfold lastWithTag
    simp only [lastWith_cons, oalt_assoc]
    rw [hf1, hf2, hf3]
    cases hc : !tag.IsHeader t && tag.IsTrailer t with
    | true =>
      rw [if_pos rfl]
      have hih : tag.IsHeader t = false := by
        cases hq : tag.IsHeader t
        · rfl
        · rw [hq] at hc; simp at hc
      have hit : tag.IsTrailer t = true := by
        cases hq : tag.IsTrailer t
        · rw [hq] at hc; simp at hc
        · rfl
      have h8 : ¬ tag.BeginString = t := by
        intro he; rw [← he] at hih; exact absurd hih (by decide)
      have h9 : ¬ tag.BodyLength = t := by
        intro he; rw [← he] at hih; exact absurd hih (by decide)
      have h35 : ¬ tag.MsgType = t := by
        intro he; rw [← he] at hih; exact absurd hih (by decide)
      rw [lastWith_congr _ _ (isTrailerField_of t hih hit) suf]
      simp [oalt_none_right, h8, h9, h35]
    | false =>
      rw [if_neg (show ¬ (false = true) by decide)]
      rw [lastWith_none _ (isTrailerField_of_not t hc)]
  · rw [hB t, hbaseB, oalt_none_right]
    unfold lastWithTag
    simp only [lastWith_cons, oalt_assoc]
    rw [hf1, hf2, hf3]
    cases hc : !tag.IsHeader t && !tag.IsTrailer t with
    | true =>
      rw [if_pos rfl]
      have hih : tag.IsHeader t = false := by
        cases hq : tag.IsHeader t
        · rfl
        · rw [hq] at hc; simp at hc
      have hit : tag.IsTrailer t = false := by
        cases hq : tag.IsTrailer t
        · rfl
        · rw [hq] at hc; simp at hc
      have h8 : ¬ tag.BeginString = t := by
        intro he; rw [← he] at hih; exact absurd hih (by decide)
      have h9 : ¬ tag.BodyLength = t := by
        intro he; rw [← he] at hih; exact absurd hih (by decide)
      have h35 : ¬ tag.MsgType = t := by
        intro he; rw [← he] at hih; exact absurd hih (by decide)
      rw [lastWith_congr _ _ (isBodyField_of t hih hit) suf]
      simp [oalt_none_right, h8, h9, h35]
    | false =>
      rw [if_neg (show ¬ (false = true) by decide)]
      rw [lastWith_none _ (isBodyField_of_not t hc)]

theorem rrCopy_get_ne (m : Message) (b : MessageBuilder) (src dest t : Nat)
    (h : ¬ dest = t) : (rrCopy m b src dest).header.get t = b.header.get t := by
  unfold rrCopy
  cases m.Header.get src with
  | none => rfl
  | some f =>
    simp only
    by_cases hv : f.value ≠ []
    · rw [if_pos hv]
      simp [FieldMap.get_Set, mkFieldBytes, h]
    · rw [if_neg hv]

theorem rrCopy_get_self (m : Message) (b : MessageBuilder) (src dest : Nat) :
    (rrCopy m b src dest).header.get dest =
      oalt (rrExpect m src dest) (b.header.get dest) := by
  unfold rrCopy rrExpect
  cases m.Header.get src with
  | none => rfl
  | some f =>
    simp only
    by_cases hv : f.value ≠ []
    · rw [if_pos hv, if_pos hv]
      simp [FieldMap.get_Set, mkFieldBytes, oalt]
    · rw [if_neg hv, if_neg hv]
      rfl

theorem NewMessageBuilder_get (t : Nat) : NewMessageBuilder.header.get t = none := rfl

/-- C8: reverseRoute's builder holds, under each swapped destination tag,
exactly the source header field's value when that source is present and
non-empty, and nothing otherwise, for all five identity pairs; the
on-behalf-of/deliver-to location pair is produced only under the version gate
(begin-string present and not FIX.4.0). -/
theorem c8_reverse_route (m : Message) :
    ((m.reverseRoute).header.get tag.TargetCompID = rrExpect m tag.SenderCompID tag.TargetCompID) ∧
    ((m.reverseRoute).header.get tag.TargetSubID = rrExpect m tag.SenderSubID tag.TargetSubID) ∧
    ((m.reverseRoute).header.get tag.TargetLocationID = rrExpect m tag.SenderLocationID tag.TargetLocationID) ∧
    ((m.reverseRoute).header.get tag.SenderCompID = rrExpect m tag.TargetCompID tag.SenderCompID) ∧
    ((m.reverseRoute).header.get tag.SenderSubID = rrExpect m tag.TargetSubID tag.SenderSubID) ∧
    ((m.reverseRoute).header.get tag.SenderLocationID = rrExpect m tag.TargetLocationID tag.SenderLocationID) ∧
    ((m.reverseRoute).header.get tag.DeliverToCompID = rrExpect m tag.OnBehalfOfCompID tag.DeliverToCompID) ∧
    ((m.reverseRoute).header.get tag.DeliverToSubID = rrExpect m tag.OnBehalfOfSubID tag.DeliverToSubID) ∧
    ((m.reverseRoute).header.get tag.OnBehalfOfCompID = rrExpect m tag.DeliverToCompID tag.OnBehalfOfCompID) ∧
    ((m.reverseRoute).header.get tag.OnBehalfOfSubID = rrExpect m tag.DeliverToSubID tag.OnBehalfOfSubID) ∧
    ((m.reverseRoute).header.get tag.DeliverToLocationID =
      if rrGate m then rrExpect m tag.OnBehalfOfLocationID tag.DeliverToLocationID else none) ∧
    ((m.reverseRoute).header.get tag.OnBehalfOfLocationID =
      if rrGate m then rrExpect m tag.DeliverToLocationID tag.OnBehalfOfLocationID else none) := by
  unfold Message.reverseRoute rrGate
  cases hg : m.Header.get tag.BeginString with
  | none =>
    simp only
    refine ⟨?_, ?_, ?_, ?_, ?_, ?_, ?_, ?_, ?_, ?_, ?_, ?_⟩
    all_goals simp [rrCopy_get_ne, rrCopy_get_self, NewMessageBuilder_get, oalt_none_right,
      tag.SenderCompID, tag.SenderSubID, tag.SenderLocationID, tag.TargetCompID,
      tag.TargetSubID, tag.TargetLocationID, tag.OnBehalfOfCompID, tag.OnBehalfOfSubID,
      tag.OnBehalfOfLocationID, tag.DeliverToCompID, tag.DeliverToSubID,
      tag.DeliverToLocationID]
  | some bs =>
    simp only
    by_cases hbv : bs.value ≠ BeginString_FIX40
    · have hg2 : (bs.value != BeginString_FIX40) = true := by simp [hbv]
      rw [if_pos hbv]
      simp only [hg2, if_pos rfl]
      refine ⟨?_, ?_, ?_, ?_, ?_, ?_, ?_, ?_, ?_, ?_, ?_, ?_⟩
      all_goals simp [rrCopy_get_ne, rrCopy_get_self, NewMessageBuilder_get, oalt_none_right,
        tag.SenderCompID, tag.SenderSubID, tag.SenderLocationID, tag.TargetCompID,
        tag.TargetSubID, tag.TargetLocationID, tag.OnBehalfOfCompID, tag.OnBehalfOfSubID,
        tag.OnBehalfOfLocationID, tag.DeliverToCompID, tag.DeliverToSubID,
        tag.DeliverToLocationID]
    · have hveq : bs.value = BeginString_FIX40 := not_not.mp hbv
      have hg2 : (bs.value != BeginString_FIX40) = false := by simp [hveq]
      rw [if_neg hbv]
      simp only [hg2, Bool.false_eq_true, if_false]
      refine ⟨?_, ?_, ?_, ?_, ?_, ?_, ?_, ?_, ?_, ?_, ?_, ?_⟩
      all_goals simp [rrCopy_get_ne, rrCopy_get_self, NewMessageBuilder_get, oalt_none_right,
        tag.SenderCompID, tag.SenderSubID, tag.SenderLocationID, tag.TargetCompID,
        tag.TargetSubID, tag.TargetLocationID, tag.OnBehalfOfCompID, tag.OnBehalfOfSubID,
        tag.OnBehalfOfLocationID, tag.DeliverToCompID, tag.DeliverToSubID,
        tag.DeliverToLocationID]

/-- C10: rebuild only overwrites the header's body-length entry and the
trailer's checksum entry (besides the byte buffer); every other header and
trailer entry, the whole body map, the body payload slice, the receive time
and the wire-field list are unchanged. -/
theorem c10_rebuild_frame (m : Message) (t : Nat) :
    (¬ t = tag.BodyLength → (m.rebuild).Header.get t = m.Header.get t) ∧
    (¬ t = tag.CheckSum → (m.rebuild).Trailer.get t = m.Trailer.get t) ∧
    (m.rebuild).Body = m.Body ∧
    (m.rebuild).bodyBytes = m.bodyBytes ∧
    (m.rebuild).ReceiveTime = m.ReceiveTime ∧
    (m.rebuild).fields = m.fields := by
  refine ⟨?_, ?_, rfl, rfl, rfl, rfl⟩
  · intro h
    show (m.Header.Set (NewIntField tag.BodyLength
      (m.Header.length + m.bodyBytes.length + m.Trailer.length))).get t = m.Header.get t
    rw [FieldMap.get_Set]
    simp only [NewIntField, mkFieldBytes]
    rw [if_neg (fun he => h (Eq.symm he))]
  · intro h
    show (m.Trailer.Set (newCheckSum
      ((m.Header.total + m.Trailer.total + sumBytes m.bodyBytes) % 256))).get t =
      m.Trailer.get t
    rw [FieldMap.get_Set]
    simp only [newCheckSum, mkFieldBytes]
    rw [if_neg (fun he => h (Eq.symm he))]

/-! ### Concrete evaluations: the failing inputs of the round-trip, checksum,
length-invariant and body-slice claims, and the witnesses of the proved
claims -/

/-- C1: the round-trip property fails on the code. The buffer `c1raw` parses
cleanly with trailer field 89 = "B", but re-parsing the rebuilt bytes stops at
the mis-captured checksum field: it reports a length mismatch (declared 17
versus computed 5) and the re-parsed trailer has no field 89 at all. -/
theorem c1_roundtrip_fails :
    parseMessage c1raw = (some c1msg, none) ∧
    c1msg.Trailer.get 89 = some ⟨89, strBytes "B", strBytes "89=B\x01"⟩ ∧
    (parseMessage (c1msg.rebuild).Bytes).2 = some (.incorrectLength 17 5) ∧
    Option.map (fun m2 => m2.Trailer.get 89) (parseMessage (c1msg.rebuild).Bytes).1 =
      some none :=
  ⟨rfl, rfl, rfl, rfl⟩

/-- C3: rebuild computes the checksum before overwriting the body-length
field. The buffer `c3raw` (body-length stored as "05") parses cleanly; rebuild
re-encodes the body-length as "5" but writes checksum "105", computed with the
old "05" bytes, while the rebuilt output's bytes (checksum field excluded) sum
to 57 modulo 256. -/
theorem c3_checksum_stale :
    parseMessage c3raw = (some c3msg, none) ∧
    (c3msg.rebuild).Trailer.get tag.CheckSum =
      some (mkFieldBytes tag.CheckSum (strBytes "105")) ∧
    (c3msg.rebuild).Bytes = strBytes "8=A\x019=5\x0135=0\x0110=105\x01" ∧
    (c3msg.rebuild).Bytes.drop 13 = strBytes "10=105\x01" ∧
    sumBytes ((c3msg.rebuild).Bytes.take 13) % 256 = 57 ∧
    ¬ (105 : Nat) = 57 :=
  ⟨rfl, rfl, rfl, rfl, rfl, by decide⟩

/-- C4: the declared body-length of a rebuilt Message need not equal the sum
of the encoded lengths of the rebuilt wire's non-framing fields. The buffer
`c4raw` parses cleanly but its checksum field's bytes are captured as body
payload; rebuild declares 17 while the rebuilt wire's fields other than
begin-string, body-length and checksum total 10. -/
theorem c4_length_invariant_fails :
    parseMessage c4raw = (some c4msg, none) ∧
    (c4msg.rebuild).Header.getInt tag.BodyLength = 17 ∧
    (c4msg.rebuild).Bytes = strBytes "8=A\x019=17\x0135=0\x0110=000\x0193=4\x0110=114\x01" ∧
    lengthSum (wireFields ((c4msg.rebuild).Bytes.length + 1) (c4msg.rebuild).Bytes) = 10 ∧
    ¬ (17 : Int) = 10 :=
  ⟨rfl, rfl, rfl, rfl, by decide⟩

/-- C7: the stored body payload is not always the body-partition fields'
bytes. The buffer `c7raw` has no body-partition field, yet the parsed
Message's body slice is the checksum field's seven bytes. -/
theorem c7_body_slice_not_body_fields :
    parseMessage c7raw = (some c7msg, none) ∧
    c7msg.Body.fieldLookup = [] ∧
    c7msg.bodyBytes = strBytes "10=000\x01" ∧
    ¬ strBytes "10=000\x01" = ([] : List Byte) :=
  ⟨rfl, rfl, rfl, by decide⟩

/-- Witness for C2 at `c2raw` (declared 7, actual 5). -/
theorem c2_witness :
    parseMessage c2raw = (some c2msg, some (.incorrectLength 7 5)) ∧
    ParseError.incorrectLength 7 5 =
      .incorrectLength (c2msg.Header.getInt tag.BodyLength) (lengthSum c2msg.fields) ∧
    (parseMessage c2raw).1.isSome = true := by
  refine ⟨rfl, ?_, ?_⟩
  · exact (c2_length_mismatch_only_soft_failure.1 c2raw c2msg (.incorrectLength 7 5) rfl).1
  · exact c2_length_mismatch_only_soft_failure.2 c2raw 7 5 rfl

/-- Witness for C5 at buffers whose first, second or third field is wrong. -/
theorem c5_witness :
    parseMessage (strBytes "9=5\x01") = (none, some (.fieldsOutOfOrder 8 9)) ∧
    parseMessage (strBytes "8=F\x0135=0\x01") = (none, some (.fieldsOutOfOrder 9 35)) ∧
    parseMessage (strBytes "8=F\x019=5\x0149=A\x01") =
      (none, some (.fieldsOutOfOrder 35 49)) := by
  refine ⟨?_, ?_, ?_⟩
  · exact c5_leading_field_strictness.1 (strBytes "9=5\x01")
      ⟨9, strBytes "5", strBytes "9=5\x01"⟩ [] rfl (by decide)
  · exact c5_leading_field_strictness.2.1 (strBytes "8=F\x0135=0\x01") (strBytes "35=0\x01")
      ⟨8, strBytes "F", strBytes "8=F\x01"⟩ ⟨35, strBytes "0", strBytes "35=0\x01"⟩ []
      rfl rfl (by decide)
  · exact c5_leading_field_strictness.2.2 (strBytes "8=F\x019=5\x0149=A\x01")
      (strBytes "9=5\x0149=A\x01") (strBytes "49=A\x01")
      ⟨8, strBytes "F", strBytes "8=F\x01"⟩ ⟨9, strBytes "5", strBytes "9=5\x01"⟩
      ⟨49, strBytes "A", strBytes "49=A\x01"⟩ [] rfl rfl rfl (by decide)

/-- Witness for C6 at the delimiter-free buffer "55". -/
theorem c6_witness :
    extractField (strBytes "55") = .error (.noTrailingDelim (strBytes "55")) ∧
    parseMessage (strBytes "55") = (none, some (.noTrailingDelim (strBytes "55"))) := by
  constructor
  · exact c6_missing_delim_and_abort.1 (strBytes "55") (by decide)
  · exact c6_missing_delim_and_abort.2.1 (strBytes "55")
      (.noTrailingDelim (strBytes "55")) rfl

/-- Witness for C8 at `c8msg` (sender-comp-id "A", target-comp-id "B", no
sub-ids): the reversed builder holds target-comp-id "A" and no
target-sub-id. -/
theorem c8_witness :
    (c8msg.reverseRoute).header.get tag.TargetCompID =
      some (mkFieldBytes tag.TargetCompID (strBytes "A")) ∧
    (c8msg.reverseRoute).header.get tag.TargetSubID = none := by
  have h := c8_reverse_route c8msg
  exact ⟨(h.1).trans (by decide), (h.2.1).trans (by decide)⟩

/-- Witness for C9 at `c9raw`, where tag 49 occurs twice: the header map holds
the later occurrence "C". -/
theorem c9_witness :
    c9msg.Header.get tag.SenderCompID = some ⟨49, strBytes "C", strBytes "49=C\x01"⟩ ∧
    (if tag.IsHeader tag.SenderCompID then lastWithTag tag.SenderCompID c9msg.fields
      else none) = some ⟨49, strBytes "C", strBytes "49=C\x01"⟩ := by
  have h := (c9_duplicate_tag_last_write_wins c9raw c9msg rfl tag.SenderCompID).1
  exact ⟨h.trans (by decide), by decide⟩

/-- Witness for C10 at `c10msg`: rebuild leaves the message-type entry, a
non-checksum trailer entry and the body map unchanged. -/
theorem c10_witness :
    (c10msg.rebuild).Header.get tag.MsgType = c10msg.Header.get tag.MsgType ∧
    c10msg.Header.get tag.MsgType = some ⟨35, strBytes "0", strBytes "35=0\x01"⟩ ∧
    (c10msg.rebuild).Trailer.get 89 = c10msg.Trailer.get 89 ∧
    (c10msg.rebuild).Body = c10msg.Body := by
  have h := c10_rebuild_frame c10msg tag.MsgType
  have h89 := c10_rebuild_frame c10msg 89
  exact ⟨h.1 (by decide), by decide, h89.2.1 (by decide), h.2.2.1⟩

end Quickfix
